import Mathlib

/-!
Shallow embedding of the epoll proactor (qpid-proton C sources) and proofs of
the frozen claims about it.  Each section embeds one subsystem of the source
file, keeping the source's names, and the theorems at the end settle the
claims.  Machine integers of the source (`int`, `size_t`, `uint32_t`) are
modelled as `Int`/`Nat`; the kernel objects behind the file descriptors
(timerfd, eventfd, the epoll set) are modelled by the small amount of state
the source manipulates through them.
-/

namespace Spec2Proof

/-! ## Linux constants (`sys/epoll.h`, `errno.h`) -/
def EPOLLIN : Nat := 1

def EPOLLOUT : Nat := 4

def EPOLLERR : Nat := 8

def EPOLLHUP : Nat := 16

def EAGAIN : Nat := 11

def EWOULDBLOCK : Nat := 11

def EINTR : Nat := 4

/-! ## ptimer (source lines 122-193)

`ptimer_t` holds `pending_count`/`skip_count` (C `int`, modelled as `Int`)
and a timerfd.  The timerfd kernel object is modelled by `armed` (the
`itimerspec` currently programmed is nonzero) and `ticks` (expirations
recorded by the kernel and not yet read); `timerfd_settime` returns the old
`itimerspec` (our `armed`), and the `read` in the callback returns `ticks`
and clears them, matching the assumptions the source encodes in its
asserts. -/
structure Ptimer where
  armed : Bool
  ticks : Nat
  pending_count : Int
  skip_count : Int
deriving Repr, DecidableEq

def ptimer_init : Ptimer :=
  { armed := false, ticks := 0, pending_count := 0, skip_count := 0 }

def ptimer_set (pt : Ptimer) (t_millis : Nat) : Ptimer :=
  if t_millis = 0 ∧ pt.pending_count = 0 then pt
  else
    let oldArmed := pt.armed
    let pt1 : Ptimer := { pt with armed := t_millis != 0 }
    let pt2 : Ptimer :=
      if oldArmed then { pt1 with pending_count := pt1.pending_count - 1 }
      else if pt1.pending_count ≠ 0 then { pt1 with skip_count := pt1.skip_count + 1 }
      else pt1
    if t_millis ≠ 0 then { pt2 with pending_count := pt2.pending_count + 1 } else pt2

def ptimer_fire (pt : Ptimer) : Ptimer :=
  { pt with armed := false, ticks := pt.ticks + 1 }

def ptimer_callback (pt : Ptimer) : Int × Ptimer :=
  let exp_count : Int := (pt.ticks : Int) - pt.skip_count
  (exp_count,
   { pt with ticks := 0, skip_count := 0,
             pending_count := pt.pending_count - exp_count })

/-- One interleaving step on a `ptimer_t`: a `ptimer_set` call, a kernel
expiry (only an armed timer fires), or the `ptimer_callback` bookkeeping. -/
inductive PtStep : Ptimer → Ptimer → Prop
  | set (pt : Ptimer) (t : Nat) : PtStep pt (ptimer_set pt t)
  | fire (pt : Ptimer) (h : pt.armed = true) : PtStep pt (ptimer_fire pt)
  | callback (pt : Ptimer) : PtStep pt (ptimer_callback pt).2

inductive PtReach : Ptimer → Prop
  | init : PtReach ptimer_init
  | step (pt pt2 : Ptimer) : PtReach pt → PtStep pt pt2 → PtReach pt2

def PtInv (pt : Ptimer) : Prop :=
  0 ≤ pt.skip_count ∧
  (if pt.armed then (1 : Int) else 0) ≤ pt.pending_count ∧
  (if pt.armed then (1 : Int) else 0) + (pt.ticks : Int) - pt.skip_count ≤ pt.pending_count

/-! ## Wake subsystem (source lines 340-417)

Contexts are identified by `Nat`.  The shared state is the per-context
`wake_ops` and `working` fields (guarded by the context mutex) together with
the proactor's FIFO wake list and `wakes_in_progress` flag (guarded by
`eventfd_mutex`); the `wake_next` intrusive pointers are the list order.
`inflight` is ghost bookkeeping for the calling discipline stated at
`wake_done` ("call with owner lock held, once for each pop from the wake
list"): it counts contexts popped by `wake_pop_front` whose `wake_done` has
not yet run, and gates the `done` transition. -/
def updN (f : Nat → Nat) (c v : Nat) : Nat → Nat := fun x => if x = c then v else f x

def updB (f : Nat → Bool) (c : Nat) (v : Bool) : Nat → Bool := fun x => if x = c then v else f x

structure WState where
  wake_ops : Nat → Nat
  working : Nat → Bool
  wake_list : List Nat
  wakes_in_progress : Bool
  inflight : Nat → Nat

def winit : WState :=
  { wake_ops := fun _ => 0, working := fun _ => false, wake_list := [],
    wakes_in_progress := false, inflight := fun _ => 0 }

def wake (s : WState) (c : Nat) : WState × Bool :=
  if s.wake_ops c = 0 then
    if s.working c = false then
      let s1 : WState := { s with wake_ops := updN s.wake_ops c (s.wake_ops c + 1),
                                  wake_list := s.wake_list ++ [c] }
      if s1.wakes_in_progress = false then
        ({ s1 with wakes_in_progress := true }, true)
      else (s1, false)
    else (s, false)
  else (s, false)

def wake_pop_front (s : WState) : Option Nat × WState :=
  match s.wake_list with
  | [] => (none, s)
  | c :: rest =>
    let s1 : WState := { s with wake_list := rest,
                                inflight := updN s.inflight c (s.inflight c + 1) }
    if rest.isEmpty then (some c, { s1 with wakes_in_progress := false })
    else (some c, s1)

def wake_done (s : WState) (c : Nat) : WState :=
  { s with wake_ops := updN s.wake_ops c (s.wake_ops c - 1),
           inflight := updN s.inflight c (s.inflight c - 1) }

/-- Interleaving steps of the wake subsystem: any thread may call `wake` on
any context, a consumer thread pops the front of the wake list (the source
asserts `wakes_in_progress` there), `wake_done` runs once for each pop, and
a context's `working` flag may be toggled by its (unique) working thread. -/
inductive WStep : WState → WState → Prop
  | wake (s : WState) (c : Nat) : WStep s (wake s c).1
  | pop (s : WState) (h : s.wakes_in_progress = true) : WStep s (wake_pop_front s).2
  | done (s : WState) (c : Nat) (h : 0 < s.inflight c) : WStep s (wake_done s c)
  | setWorking (s : WState) (c : Nat) (b : Bool) :
      WStep s { s with working := updB s.working c b }

inductive WReach : WState → Prop
  | init : WReach winit
  | step (s s2 : WState) : WReach s → WStep s s2 → WReach s2

def WInv (s : WState) : Prop :=
  (∀ c, s.wake_list.count c + s.inflight c = s.wake_ops c) ∧
  (∀ c, s.wake_list.count c ≤ 1) ∧
  (s.wake_list ≠ [] → s.wakes_in_progress = true)

/-! ## Proactor events (source lines 1487-1558, 1687-1744)

The proactor-level slice: the `interrupts` / `deferred_interrupts` counters
(`size_t`, modelled as `Nat`), the timer flags, the proactor collector (a
FIFO list; `pn_collector_put` appends, `pn_collector_next` pops the front)
and the global `ptimer`.  `produced_timeouts` is a ghost counter stepped
exactly when `proactor_add_event` appends a `PN_PROACTOR_TIMEOUT`, so that
"no timeout event is produced" can be stated about an interval of a run. -/
inductive PEvent where
  | interrupt
  | timeout
  | inactive
  | connection_wake
  | listener_open
  | listener_accept
  | listener_close
deriving Repr, DecidableEq

structure ProState where
  interrupts : Nat
  deferred_interrupts : Nat
  timer_expired : Bool
  timer_cancelled : Bool
  timer_armed : Bool
  inactive : Bool
  working : Bool
  timer : Ptimer
  collector : List PEvent
  produced_timeouts : Nat
deriving Repr, DecidableEq

def pro_init : ProState :=
  { interrupts := 0, deferred_interrupts := 0, timer_expired := false,
    timer_cancelled := false, timer_armed := true, inactive := false,
    working := false, timer := ptimer_init, collector := [],
    produced_timeouts := 0 }

def proactor_add_event (p : ProState) (e : PEvent) : ProState :=
  { p with collector := p.collector ++ [e],
           produced_timeouts :=
             p.produced_timeouts + (if e = PEvent.timeout then 1 else 0) }

def proactor_has_event (p : ProState) : Bool := !p.collector.isEmpty

def proactor_update_batch (p : ProState) : Bool × ProState :=
  if proactor_has_event p then (true, p)
  else if 0 < p.deferred_interrupts then
    (true, proactor_add_event
      { p with deferred_interrupts := p.deferred_interrupts - 1,
               interrupts := p.interrupts - 1 } PEvent.interrupt)
  else if p.timer_expired then
    (true, proactor_add_event { p with timer_expired := false } PEvent.timeout)
  else
    let r1 : ProState × Nat :=
      if 0 < p.interrupts then
        let q := proactor_add_event { p with interrupts := p.interrupts - 1 }
                   PEvent.interrupt
        (if 0 < q.interrupts then { q with deferred_interrupts := q.interrupts }
         else q, 1)
      else (p, 0)
    if r1.1.inactive = true ∧ r1.2 = 0 then
      (true, proactor_add_event { r1.1 with inactive := false } PEvent.inactive)
    else (0 < r1.2, r1.1)

def collector_next (p : ProState) : Option PEvent × ProState :=
  match p.collector with
  | [] => (none, p)
  | e :: rest => (some e, { p with collector := rest })

def proactor_batch_next (p : ProState) : Option PEvent × ProState :=
  collector_next (proactor_update_batch p).2

def pn_proactor_interrupt (p : ProState) : ProState :=
  { p with interrupts := p.interrupts + 1 }

def pn_proactor_set_timeout (p : ProState) (t : Nat) : ProState :=
  let p1 : ProState := { p with timer_cancelled := false }
  if t = 0 then
    { p1 with timer := ptimer_set p1.timer 0, timer_expired := true }
  else { p1 with timer := ptimer_set p1.timer t }

def pn_proactor_cancel_timeout (p : ProState) : ProState :=
  { p with timer_cancelled := true, timer_expired := false,
           timer := ptimer_set p.timer 0 }

def proactor_try_batch (p : ProState) : Bool × ProState :=
  if p.working = false then
    let r := proactor_update_batch p
    if r.1 then (true, { r.2 with working := true }) else (false, r.2)
  else (false, p)

def proactor_process (p : ProState) (timeout : Bool) : Bool × ProState :=
  if timeout then
    let r := ptimer_callback p.timer
    let p1 : ProState := { p with timer := r.2, timer_armed := false }
    let p2 : ProState :=
      if r.1 ≠ 0 ∧ p1.timer_cancelled = false then { p1 with timer_expired := true }
      else p1
    proactor_try_batch p2
  else
    proactor_try_batch p

def pn_proactor_done (p : ProState) : ProState :=
  let p1 : ProState := { p with working := false }
  (proactor_update_batch p1).2

/-- The actions a thread (or the kernel timer) can apply to the proactor
slice between two observations. -/
inductive PAct where
  | interrupt
  | set_timeout (t : Nat)
  | cancel_timeout
  | fire
  | process (timeout : Bool)
  | batch_next
  | done_batch
deriving Repr, DecidableEq

def pact_is_set_timeout : PAct → Bool
  | PAct.set_timeout _ => true
  | _ => false

def pstep (a : PAct) (p : ProState) : ProState :=
  match a with
  | PAct.interrupt => pn_proactor_interrupt p
  | PAct.set_timeout t => pn_proactor_set_timeout p t
  | PAct.cancel_timeout => pn_proactor_cancel_timeout p
  | PAct.fire => if p.timer.armed then { p with timer := ptimer_fire p.timer } else p
  | PAct.process timeout => (proactor_process p timeout).2
  | PAct.batch_next => (proactor_batch_next p).2
  | PAct.done_batch => pn_proactor_done p

def prun (acts : List PAct) (p : ProState) : ProState :=
  match acts with
  | [] => p
  | a :: rest => prun rest (pstep a p)

def interruptN (n : Nat) (p : ProState) : ProState :=
  match n with
  | 0 => p
  | k + 1 => interruptN k (pn_proactor_interrupt p)

def drainLoop (fuel : Nat) (p : ProState) : List PEvent :=
  match fuel with
  | 0 => []
  | f + 1 =>
    match proactor_batch_next p with
    | (none, _) => []
    | (some e, p2) => e :: drainLoop f p2

/-- The state of the conservation drain after k interrupts have been
reserved via `deferred_interrupts`. -/
def mkDeferred (k : Nat) : ProState :=
  { pro_init with interrupts := k, deferred_interrupts := k }

/-- A quiescent proactor that has received n interrupts. -/
def mkFresh (n : Nat) : ProState :=
  { pro_init with interrupts := n }

def no_set_timeout (acts : List PAct) : Bool :=
  acts.all (fun a => !pact_is_set_timeout a)

def sticky_inv (k : Nat) (q : ProState) : Prop :=
  q.timer_cancelled = true ∧ q.timer_expired = false ∧
  PEvent.timeout ∉ q.collector ∧ q.produced_timeouts = k

/-! ## pconnection (source lines 437-1128)

The connection driver is an external collaborator: its observable flags are
a `Driver` record and every driver-mutating call the reactor makes
(`pn_connection_driver_close`, `read_done`, `read_close`, `write_done`,
`errorf`+`close` inside `psocket_error`) produces a new `Driver` chosen by
an oracle, so the theorems quantify over all driver behaviours.  The oracle
also decides the outcomes of the `read`/`write`/`connect` system calls and
of `pn_transport_tick`.  The epoll side of `rearm`/`start_polling` is
reflected in the `sock_polling`/`timer_polling`/`sock_wanted` fields. -/
structure Driver where
  has_event : Bool
  rclosed : Bool
  wclosed : Bool
  finished : Bool
  rbuf_size : Nat
  wbuf_size : Nat
deriving Repr, DecidableEq

inductive ReadRes where
  | bytes (n : Nat)
  | rerr (e : Nat)
deriving Repr, DecidableEq

inductive WriteRes where
  | wrote (n : Nat)
  | werr (e : Nat)
deriving Repr, DecidableEq

structure DOracle where
  on_close : Driver → Driver
  on_read_done : Driver → Nat → Driver
  on_read_close : Driver → Driver
  on_write_done : Driver → Nat → Driver
  on_error : Driver → Driver
  read_res : Driver → ReadRes
  write_res : Driver → WriteRes
  tick_idle : Bool
  tick_next : Option Nat
  connect_ok : Bool
  sockfd_pos : Bool

structure PConn where
  working : Bool
  closing : Bool
  wake_ops : Nat
  new_events : Nat
  wake_count : Nat
  tick_pending : Bool
  timer_armed : Bool
  queued_disconnect : Bool
  timer : Ptimer
  timer_polling : Bool
  current_arm : Nat
  sock_wanted : Nat
  sock_polling : Bool
  connected : Bool
  read_blocked : Bool
  write_blocked : Bool
  disconnected : Bool
  hog_count : Nat
  driver : Driver
  collector : List PEvent
deriving Repr, DecidableEq

def pconnection_rclosed (pc : PConn) : Bool := pc.driver.rclosed

def pconnection_wclosed (pc : PConn) : Bool := pc.driver.wclosed

def pconnection_has_event (pc : PConn) : Bool :=
  pc.driver.has_event || !pc.collector.isEmpty

def pconnection_is_final (pc : PConn) : Bool :=
  pc.current_arm == 0 && pc.timer.pending_count == 0 && pc.wake_ops == 0

def pconnection_tick (pc : PConn) (o : DOracle) : PConn :=
  if o.tick_idle then
    let pc1 : PConn := { pc with timer := ptimer_set pc.timer 0 }
    match o.tick_next with
    | some next => { pc1 with timer := ptimer_set pc1.timer next }
    | none => pc1
  else pc

def psocket_error_conn (pc : PConn) (o : DOracle) : PConn :=
  { pc with driver := o.on_error pc.driver }

def pconnection_begin_close (pc : PConn) (o : DOracle) : PConn :=
  if !pc.closing then
    let pc1 : PConn := { pc with closing := true, sock_polling := false,
                                 current_arm := 0 }
    let pc2 : PConn := { pc1 with driver := o.on_close pc1.driver }
    { pc2 with timer := ptimer_set pc2.timer 0 }
  else pc

def rearm_wanted_src (pc : PConn) : Nat :=
  let w1 : Nat := if pc.read_blocked && !pconnection_rclosed pc then EPOLLIN else 0
  if !pconnection_wclosed pc then
    if pc.write_blocked then w1 ||| EPOLLOUT
    else if pc.driver.wbuf_size != 0 then w1 ||| EPOLLOUT
    else w1
  else w1

def pconnection_rearm_check (pc : PConn) : Bool × PConn :=
  if pconnection_rclosed pc && pconnection_wclosed pc then (false, pc)
  else
    let wanted_now := rearm_wanted_src pc
    if wanted_now = 0 ∨ pc.current_arm = wanted_now then (false, pc)
    else (true, { pc with sock_wanted := wanted_now, current_arm := wanted_now })

def pconnection_work_pending (pc : PConn) : Bool :=
  pc.new_events != 0 || pc.wake_count != 0 || pc.tick_pending ||
  pc.queued_disconnect ||
  (!pc.read_blocked && !pconnection_rclosed pc) ||
  (pc.driver.wbuf_size != 0 && !pc.write_blocked)

def pconnection_start (pc : PConn) : PConn :=
  let pc1 : PConn := { pc with timer_polling := true }
  let pc2 : PConn := { pc1 with timer_polling := true }
  { pc2 with sock_wanted := EPOLLIN ||| EPOLLOUT, sock_polling := true }

def pconnection_connected_lh (pc : PConn) : PConn :=
  if !pc.connected then { pc with connected := true } else pc

def pconnection_maybe_connect_lh (pc : PConn) (o : DOracle) : PConn :=
  if !pc.connected then
    if o.connect_ok then pconnection_start pc
    else
      let pc1 : PConn := if !o.sockfd_pos then psocket_error_conn pc o else pc
      { pc1 with disconnected := true }
  else { pc with disconnected := true }

structure ReadOut where
  pc : PConn
  read_attempted : Bool
  read_done_arg : Option Nat
  read_close_called : Bool
  error_reported : Option Nat
  ticked : Bool

def read_skip (pc : PConn) : ReadOut :=
  { pc := pc, read_attempted := false, read_done_arg := none,
    read_close_called := false, error_reported := none, ticked := false }

def pconnection_read_section (pc : PConn) (res : ReadRes) (o : DOracle) : ReadOut :=
  if !pconnection_rclosed pc then
    let rbuf := pc.driver.rbuf_size
    if rbuf != 0 && !pc.read_blocked then
      match res with
      | ReadRes.bytes n =>
        if 0 < n then
          let pc1 : PConn := { pc with driver := o.on_read_done pc.driver n }
          let pc2 : PConn := pconnection_tick pc1 o
          let pc3 : PConn :=
            if !pc2.driver.rclosed && n < rbuf then { pc2 with read_blocked := true }
            else pc2
          { pc := pc3, read_attempted := true, read_done_arg := some n,
            read_close_called := false, error_reported := none, ticked := true }
        else
          { pc := { pc with driver := o.on_read_close pc.driver },
            read_attempted := true, read_done_arg := none,
            read_close_called := true, error_reported := none, ticked := false }
      | ReadRes.rerr e =>
        if e == EWOULDBLOCK then
          { pc := { pc with read_blocked := true }, read_attempted := true,
            read_done_arg := none, read_close_called := false,
            error_reported := none, ticked := false }
        else if !(e == EAGAIN || e == EINTR) then
          { pc := psocket_error_conn pc o, read_attempted := true,
            read_done_arg := none, read_close_called := false,
            error_reported := some e, ticked := false }
        else
          { pc := pc, read_attempted := true, read_done_arg := none,
            read_close_called := false, error_reported := none, ticked := false }
    else read_skip pc
  else read_skip pc

def pconnection_write (pc : PConn) (o : DOracle) : Bool × PConn :=
  let wbuf := pc.driver.wbuf_size
  match o.write_res pc.driver with
  | WriteRes.wrote n =>
    if 0 < n then
      let pc1 : PConn := { pc with driver := o.on_write_done pc.driver n }
      if n < wbuf then (true, { pc1 with write_blocked := true }) else (true, pc1)
    else (true, pc)
  | WriteRes.werr e =>
    if e == EWOULDBLOCK then (true, { pc with write_blocked := true })
    else if !(e == EAGAIN || e == EINTR) then (false, pc)
    else (true, pc)

def pconnection_write_loop : Nat → PConn → DOracle → PConn
  | 0, pc, _ => pc
  | fuel + 1, pc, o =>
    if !pc.write_blocked && !pconnection_wclosed pc then
      if pc.driver.wbuf_size != 0 then
        let r := pconnection_write pc o
        let pc2 := if r.1 then r.2 else psocket_error_conn r.2 o
        pconnection_write_loop fuel pc2 o
      else
        if pc.driver.wclosed then
          pconnection_write_loop fuel { pc with write_blocked := true } o
        else pc
    else pc

def pconnection_merge_disconnect (pc : PConn) (o : DOracle) : PConn :=
  if pc.queued_disconnect then
    let pcA : PConn := { pc with queued_disconnect := false }
    if !pcA.closing then { pcA with driver := o.on_close pcA.driver } else pcA
  else pc

/-- The body of one `retry` iteration of `pconnection_process` between the
event-queue check and the post-pump checks: sample `wake_count` and
`tick_pending`, decode `new_events`, rearm the timer, post the coalesced
`PN_CONNECTION_WAKE`, then the read pump, the deferred tick and the write
pump.  Returns the `unarmed` local together with the updated state. -/
def pconnection_work_body (fuel : Nat) (pc : PConn) (o : DOracle) : Bool × PConn :=
  let closed := pconnection_rclosed pc && pconnection_wclosed pc
  let s1 := if pc.wake_count != 0 then (!closed, { pc with wake_count := 0 })
            else (false, pc)
  let waking := s1.1
  let pcW := s1.2
  let s2 := if pcW.tick_pending then (!closed, { pcW with tick_pending := false })
            else (false, pcW)
  let tick0 := s2.1
  let pcT := s2.2
  let pcE :=
    if pcT.new_events != 0 then
      let pcB :=
        if (pcT.new_events &&& (EPOLLHUP ||| EPOLLERR)) != 0 &&
            !pconnection_rclosed pcT && !pconnection_wclosed pcT then
          pconnection_maybe_connect_lh pcT o
        else pconnection_connected_lh pcT
      let pcC := if (pcB.new_events &&& EPOLLOUT) != 0 then
                   { pcB with write_blocked := false } else pcB
      let pcD := if (pcC.new_events &&& EPOLLIN) != 0 then
                   { pcC with read_blocked := false } else pcC
      { pcD with current_arm := 0, new_events := 0 }
    else pcT
  let unarmed := pcE.current_arm == 0
  let pcA := if !pcE.timer_armed then { pcE with timer_armed := true } else pcE
  let pcH := { pcA with hog_count := pcA.hog_count + 1 }
  let pcK := if waking then
               { pcH with collector := pcH.collector ++ [PEvent.connection_wake] }
             else pcH
  let ro := pconnection_read_section pcK (o.read_res pcK.driver) o
  let tick1 := tick0 && !ro.ticked
  let pcR := if tick1 then pconnection_tick ro.pc o else ro.pc
  (unarmed, pconnection_write_loop fuel pcR o)

structure ProcResult where
  pc : PConn
  batch : Bool
  cleanups : List PConn
  rearmed_sock : Bool

def pconnection_process_loop : Nat → PConn → Bool → DOracle → ProcResult
  | 0, pc, _, _ => { pc := pc, batch := false, cleanups := [], rearmed_sock := false }
  | fuel + 1, pc0, topup, o =>
    let pc := pconnection_merge_disconnect pc0 o
    if pconnection_has_event pc then
      { pc := pc, batch := true, cleanups := [], rearmed_sock := false }
    else
      let m := pconnection_work_body (fuel + 1) pc o
      let unarmed := m.1
      let pc2 := m.2
      if topup then
        let r := if unarmed then pconnection_rearm_check pc2 else (false, pc2)
        { pc := r.2, batch := false, cleanups := [], rearmed_sock := r.1 }
      else if pconnection_has_event pc2 then
        let r := if unarmed then pconnection_rearm_check pc2 else (false, pc2)
        { pc := r.2, batch := true, cleanups := [], rearmed_sock := r.1 }
      else if pc2.closing && pconnection_is_final pc2 then
        { pc := pc2, batch := false, cleanups := [pc2], rearmed_sock := false }
      else if pconnection_work_pending pc2 then
        pconnection_process_loop fuel pc2 topup o
      else
        let pc3 : PConn := { pc2 with working := false, hog_count := 0 }
        if pc3.driver.finished then
          let pc4 := pconnection_begin_close pc3 o
          if pconnection_is_final pc4 then
            { pc := pc4, batch := false, cleanups := [pc4], rearmed_sock := false }
          else
            let r := pconnection_rearm_check pc4
            { pc := r.2, batch := false, cleanups := [], rearmed_sock := r.1 }
        else
          let r := pconnection_rearm_check pc3
          { pc := r.2, batch := false, cleanups := [], rearmed_sock := r.1 }

/-- The input-merge prelude of `pconnection_process` (source lines
794-824): run the timer callback when invoked for a timeout, then under the
lock record epoll events, decode the timer fire into `tick_pending`, or
consume an inbound wake, and mark the timer unarmed. -/
def pconnection_merge_inputs (pc0 : PConn) (events : Nat)
    (timeout topup : Bool) : PConn :=
  let inbound_wake := events == 0 && !timeout && !topup
  let s0 := if timeout then
      let r := ptimer_callback pc0.timer
      (r.1 != 0, { pc0 with timer := r.2 })
    else (false, pc0)
  let timer_fired := s0.1
  let pcA := s0.2
  let pcB := if events != 0 then { pcA with new_events := events }
             else if timer_fired then { pcA with tick_pending := true }
             else if inbound_wake then { pcA with wake_ops := pcA.wake_ops - 1 }
             else pcA
  if timeout then { pcB with timer_armed := false } else pcB

def pconnection_process (fuel : Nat) (pc0 : PConn) (events : Nat)
    (timeout topup : Bool) (o : DOracle) : ProcResult :=
  let pcC := pconnection_merge_inputs pc0 events timeout topup
  if !topup && pcC.working then
    { pc := pcC, batch := false, cleanups := [], rearmed_sock := false }
  else
    let pcD := if topup then pcC else { pcC with working := true }
    if pcD.closing && pconnection_is_final pcD then
      { pc := pcD, batch := false, cleanups := [pcD], rearmed_sock := false }
    else
      pconnection_process_loop fuel pcD topup o

/-- `pconnection_done` (source lines 741-761); the `wake` notification of
the first branch targets the wake subsystem modelled separately by
`WState`. -/
def pconnection_done (pc0 : PConn) (o : DOracle) : ProcResult :=
  let pc : PConn := { pc0 with working := false, hog_count := 0 }
  if pconnection_has_event pc || pconnection_work_pending pc then
    let r := pconnection_rearm_check pc
    { pc := r.2, batch := false, cleanups := [], rearmed_sock := r.1 }
  else if pc.driver.finished then
    let pc2 := pconnection_begin_close pc o
    if pconnection_is_final pc2 then
      { pc := pc2, batch := false, cleanups := [pc2], rearmed_sock := false }
    else
      let r := pconnection_rearm_check pc2
      { pc := r.2, batch := false, cleanups := [], rearmed_sock := r.1 }
  else
    let r := pconnection_rearm_check pc
    { pc := r.2, batch := false, cleanups := [], rearmed_sock := r.1 }

def pn_connection_wake (pc : PConn) : PConn :=
  if !pc.closing then { pc with wake_count := pc.wake_count + 1 } else pc

def wakeN : Nat → PConn → PConn
  | 0, pc => pc
  | n + 1, pc => wakeN n (pn_connection_wake pc)

/-- A fresh connection as set up by `new_pconnection_t` (source lines
586-622), with one pending inbound wake. -/
def pconn_init : PConn :=
  { working := false, closing := false, wake_ops := 0, new_events := 0,
    wake_count := 0, tick_pending := false, timer_armed := false,
    queued_disconnect := false, timer := ptimer_init, timer_polling := false,
    current_arm := 0, sock_wanted := 0, sock_polling := false,
    connected := false, read_blocked := true, write_blocked := true,
    disconnected := false, hog_count := 0,
    driver := { has_event := false, rclosed := false, wclosed := false,
                finished := false, rbuf_size := 0, wbuf_size := 0 },
    collector := [] }

/-- A quiet driver oracle: the driver produces no bytes and no events of
its own, so a drain only delivers what the reactor posts. -/
def dOracleQuiet : DOracle :=
  { on_close := fun d => { d with rclosed := true, wclosed := true },
    on_read_done := fun d _ => d,
    on_read_close := fun d => { d with rclosed := true },
    on_write_done := fun d _ => d,
    on_error := fun d => { d with rclosed := true, wclosed := true },
    read_res := fun _ => ReadRes.rerr EAGAIN,
    write_res := fun _ => WriteRes.werr EAGAIN,
    tick_idle := false, tick_next := none,
    connect_ok := true, sockfd_pos := true }

def final_ok (s : PConn) : Bool := s.closing && pconnection_is_final s

/-- The spec formula for the rearm mask (spec section 4.e, "Rearm
policy"). -/
def rearm_wanted (pc : PConn) : Nat :=
  (if pc.read_blocked && !pc.driver.rclosed then EPOLLIN else 0) |||
  (if !pc.driver.wclosed && (pc.write_blocked || pc.driver.wbuf_size != 0)
   then EPOLLOUT else 0)

/-- A connection whose driver has both sides closed, with one pending
inbound wake. -/
def pconn_closed : PConn :=
  { pconn_init with
    wake_ops := 1
    driver := { has_event := false, rclosed := true, wclosed := true,
                finished := false, rbuf_size := 0, wbuf_size := 0 } }

/-! ## Listener (source lines 1138-1283)

The listener slice for `pn_proactor_listen`: the input is the resolved
address list as a list of per-address success flags (socket+setsockopt+
bind+listen all succeed), or `none` when `getaddrinfo` itself fails.
`psockets_size` counts the successfully bound sockets; the dummy socket of
the all-failed path is the `dummy_socket` flag and the listener condition
is `condition_set`. -/
structure ListenerM where
  closing : Bool
  close_dispatched : Bool
  wake_ops : Nat
  collector : List PEvent
  condition_set : Bool
  psockets_size : Nat
  dummy_socket : Bool
deriving Repr, DecidableEq

def listener_init : ListenerM :=
  { closing := false, close_dispatched := false, wake_ops := 0, collector := [],
    condition_set := false, psockets_size := 0, dummy_socket := false }

def listener_begin_close (l : ListenerM) : ListenerM :=
  if !l.closing then
    { l with closing := true,
             collector := l.collector ++ [PEvent.listener_close] }
  else l

def psocket_error_listener (l : ListenerM) : ListenerM :=
  listener_begin_close { l with condition_set := true }

def pn_proactor_listen (l : ListenerM) (addrs : Option (List Bool)) : ListenerM :=
  let l1 := match addrs with
    | some oks => { l with psockets_size := oks.count true }
    | none => l
  let l2 := { l1 with collector := l1.collector ++ [PEvent.listener_open] }
  if l2.psockets_size == 0 then
    psocket_error_listener { l2 with dummy_socket := true }
  else l2

def listen_bound (addrs : Option (List Bool)) : Nat :=
  match addrs with
  | some oks => oks.count true
  | none => 0

/-! ## Epoll registration (source lines 224-245, 1014-1030) -/
structure EpollExt where
  fd : Int
  wanted : Nat
  polling : Bool
deriving Repr, DecidableEq

def start_polling (ee : EpollExt) (reg : List Int) : Bool × EpollExt × List Int :=
  if ee.polling then (false, ee, reg)
  else
    let ee2 : EpollExt := { ee with polling := true }
    if ee2.fd ∈ reg then (false, ee2, reg)
    else (true, ee2, reg ++ [ee2.fd])

/-- The two `start_polling` calls `pconnection_start` makes on the
per-connection timer record (source lines 1016 and 1024). -/
def pconnection_start_timer_polls (tee : EpollExt) (reg : List Int) :
    EpollExt × List Int :=
  let r1 := start_polling tee reg
  let r2 := start_polling r1.2.1 r1.2.2
  (r2.2.1, r2.2.2)

/-! ## Theorems settling the claims -/

theorem ptinv_init : PtInv ptimer_init := by
  simp [PtInv, ptimer_init]

theorem ptinv_set (pt : Ptimer) (t : Nat) (h : PtInv pt) : PtInv (ptimer_set pt t) := by
  obtain ⟨h1, h2, h3⟩ := h
  by_cases ht : t = 0 <;> by_cases ha : pt.armed <;>
    by_cases hp : pt.pending_count = 0 <;>
    simp [ptimer_set, ht, ha, hp, PtInv] at * <;>
    constructor <;> try constructor
  all_goals omega

theorem ptinv_fire (pt : Ptimer) (h : PtInv pt) (ha : pt.armed = true) :
    PtInv (ptimer_fire pt) := by
  obtain ⟨h1, h2, h3⟩ := h
  simp [ptimer_fire, PtInv, ha] at *
  constructor <;> omega

theorem ptinv_callback (pt : Ptimer) (h : PtInv pt) : PtInv (ptimer_callback pt).2 := by
  obtain ⟨h1, h2, h3⟩ := h
  cases ha : pt.armed <;> simp [ptimer_callback, PtInv, ha] at * <;> omega

theorem ptreach_inv (pt : Ptimer) (h : PtReach pt) : PtInv pt := by
  induction h with
  | init => exact ptinv_init
  | step pt pt2 hr hs ih =>
    cases hs with
    | set t => exact ptinv_set pt t ih
    | fire hq => exact ptinv_fire pt ih hq
    | callback => exact ptinv_callback pt ih

/-- C4: Timer accounting is exact.  `set(0)` cancels (decrementing
`pending_count` when it displaces a live arm, incrementing `skip_count` when
it races an already-fired expiry), `set(t>0)` leaves a net increment of
`pending_count` unless it displaces an arm, the callback reads the expiry
counter, subtracts `skip_count` (resetting it), decrements `pending_count`
by the result and returns that net count, and in every state reachable by
interleaving `set` calls, kernel fires and callbacks, `pending_count ≥ 0`
and `skip_count ≥ 0`. -/
theorem timer_accounting (pt : Ptimer) (h : PtReach pt) :
    (0 ≤ pt.pending_count ∧ 0 ≤ pt.skip_count) ∧
    (∀ q : Ptimer, q.armed = true → 1 ≤ q.pending_count →
      (ptimer_set q 0).pending_count = q.pending_count - 1 ∧
      (ptimer_set q 0).armed = false) ∧
    (∀ q : Ptimer, q.armed = false → q.pending_count ≠ 0 →
      (ptimer_set q 0).skip_count = q.skip_count + 1 ∧
      (ptimer_set q 0).pending_count = q.pending_count) ∧
    (∀ (q : Ptimer) (t : Nat), t ≠ 0 →
      (ptimer_set q t).pending_count =
        q.pending_count + (if q.armed then 0 else 1)) ∧
    (∀ q : Ptimer,
      (ptimer_callback q).1 = (q.ticks : Int) - q.skip_count ∧
      (ptimer_callback q).2.skip_count = 0 ∧
      (ptimer_callback q).2.pending_count = q.pending_count - (ptimer_callback q).1) := by
  refine ⟨?_, ?_, ?_, ?_, ?_⟩
  · have hi := ptreach_inv pt h
    obtain ⟨h1, h2, h3⟩ := hi
    cases ha : pt.armed <;> simp [ha] at h2 h3 <;> constructor <;> omega
  · intro q hq hp
    have hpn : ¬ q.pending_count = 0 := by omega
    simp [ptimer_set, hq, hpn]
  · intro q hq hp
    simp [ptimer_set, hq, hp]
  · intro q t ht
    by_cases ha : q.armed <;> by_cases hp : q.pending_count = 0 <;>
      simp [ptimer_set, ht, ha, hp]
  · intro q
    simp [ptimer_callback]

/-- Witness for C4: the state after `set(5)`, a kernel fire, then the
racing cancel `set(0)` is reachable and has nonnegative counters. -/
theorem timer_accounting_witness :
    0 ≤ (ptimer_set (ptimer_fire (ptimer_set ptimer_init 5)) 0).pending_count ∧
    0 ≤ (ptimer_set (ptimer_fire (ptimer_set ptimer_init 5)) 0).skip_count := by
  have hr : PtReach (ptimer_set (ptimer_fire (ptimer_set ptimer_init 5)) 0) := by
    apply PtReach.step _ _ ?_ (PtStep.set _ 0)
    apply PtReach.step _ _ ?_ (PtStep.fire _ (by decide))
    exact PtReach.step _ _ PtReach.init (PtStep.set _ 5)
  exact (timer_accounting _ hr).1

theorem winv_init : WInv winit := by
  simp [WInv, winit]

theorem count_append_single (l : List Nat) (c d : Nat) :
    (l ++ [c]).count d = l.count d + (if d = c then 1 else 0) := by
  by_cases hd : d = c <;> simp [List.count_append, List.count_cons, hd]

theorem winv_wake (s : WState) (c : Nat) (h : WInv s) : WInv (wake s c).1 := by
  obtain ⟨h1, h2, h3⟩ := h
  by_cases ho : s.wake_ops c = 0
  swap
  · simpa [wake, ho] using ⟨h1, h2, h3⟩
  by_cases hw : s.working c = false
  swap
  · simpa [wake, ho, hw] using ⟨h1, h2, h3⟩
  have hc0 : s.wake_list.count c = 0 := by have := h1 c; omega
  have hi0 : s.inflight c = 0 := by have := h1 c; omega
  have hops2 : (wake s c).1.wake_ops = updN s.wake_ops c (s.wake_ops c + 1) := by
    by_cases hip : s.wakes_in_progress = false <;> simp [wake, ho, hw, hip]
  have hlist2 : (wake s c).1.wake_list = s.wake_list ++ [c] := by
    by_cases hip : s.wakes_in_progress = false <;> simp [wake, ho, hw, hip]
  have hinf2 : (wake s c).1.inflight = s.inflight := by
    by_cases hip : s.wakes_in_progress = false <;> simp [wake, ho, hw, hip]
  have hwip2 : (wake s c).1.wakes_in_progress = true := by
    by_cases hip : s.wakes_in_progress = false <;> simp [wake, ho, hw, hip]
  refine ⟨?_, ?_, fun _ => hwip2⟩
  · intro d
    simp only [hops2, hlist2, hinf2, count_append_single, updN]
    by_cases hd : d = c
    · subst hd; simp [hc0, hi0, ho]
    · simp [hd, h1 d]
  · intro d
    simp only [hlist2, count_append_single]
    by_cases hd : d = c
    · subst hd; simp [hc0]
    · simp [hd]; exact h2 d

theorem winv_pop (s : WState) (h : WInv s) (hw : s.wakes_in_progress = true) :
    WInv (wake_pop_front s).2 := by
  obtain ⟨h1, h2, h3⟩ := h
  match hl : s.wake_list with
  | [] =>
    simp only [wake_pop_front, hl]
    exact ⟨h1, h2, h3⟩
  | c :: rest =>
    have hcount : ∀ d, (c :: rest).count d + s.inflight d = s.wake_ops d := by
      intro d; have := h1 d; rwa [hl] at this
    have hcount2 : ∀ d, (c :: rest).count d ≤ 1 := by
      intro d; have := h2 d; rwa [hl] at this
    have hlist2 : (wake_pop_front s).2.wake_list = rest := by
      by_cases hre : rest.isEmpty <;> simp [wake_pop_front, hl, hre]
    have hinf2 : (wake_pop_front s).2.inflight = updN s.inflight c (s.inflight c + 1) := by
      by_cases hre : rest.isEmpty <;> simp [wake_pop_front, hl, hre]
    have hops2 : (wake_pop_front s).2.wake_ops = s.wake_ops := by
      by_cases hre : rest.isEmpty <;> simp [wake_pop_front, hl, hre]
    refine ⟨?_, ?_, ?_⟩
    · intro d
      simp only [hlist2, hinf2, hops2, updN]
      by_cases hd : d = c
      · subst hd
        have := hcount d
        simp [List.count_cons] at this
        simp
        omega
      · have := hcount d
        simp [List.count_cons, hd] at this
        simp [hd]
        omega
    · intro d
      simp only [hlist2]
      have := hcount2 d
      simp [List.count_cons] at this
      omega
    · intro hne
      rw [hlist2] at hne
      have hre : rest.isEmpty = false := by
        cases rest with
        | nil => exact absurd rfl hne
        | cons a l => rfl
      simp [wake_pop_front, hl, hre, hw]

theorem winv_done (s : WState) (c : Nat) (h : WInv s) (hc : 0 < s.inflight c) :
    WInv (wake_done s c) := by
  obtain ⟨h1, h2, h3⟩ := h
  refine ⟨?_, h2, h3⟩
  intro d
  by_cases hd : d = c
  · subst hd
    have := h1 d
    simp [wake_done, updN]
    omega
  · have := h1 d
    simp [wake_done, updN, hd]
    omega

theorem wreach_inv (s : WState) (h : WReach s) : WInv s := by
  induction h with
  | init => exact winv_init
  | step s s2 hr hs ih =>
    cases hs with
    | wake c => exact winv_wake s c ih
    | pop hw => exact winv_pop s ih hw
    | done c hc => exact winv_done s c ih hc
    | setWorking c b =>
      obtain ⟨h1, h2, h3⟩ := ih
      exact ⟨h1, h2, h3⟩

/-- C1: the wake subsystem enqueues each context at most once.  In every
reachable state each context occurs at most once in the wake list; while
`wake_ops > 0` and the context has not been popped it occurs exactly once;
`wake` is a no-op unless `wake_ops == 0 && !working`, and when it does
enqueue it increments `wake_ops` and appends the context to the FIFO list;
`wake_pop_front` consumes exactly the head. -/
theorem wake_at_most_once (s : WState) (h : WReach s) :
    (∀ c, s.wake_list.count c ≤ 1) ∧
    (∀ c, 0 < s.wake_ops c → s.inflight c = 0 → s.wake_list.count c = 1) ∧
    (∀ c, ¬ (s.wake_ops c = 0 ∧ s.working c = false) → wake s c = (s, false)) ∧
    (∀ c, s.wake_ops c = 0 → s.working c = false →
      (wake s c).1.wake_ops c = s.wake_ops c + 1 ∧
      (wake s c).1.wake_list = s.wake_list ++ [c]) ∧
    (∀ (c : Nat) (rest : List Nat), s.wake_list = c :: rest →
      (wake_pop_front s).1 = some c ∧ (wake_pop_front s).2.wake_list = rest) := by
  obtain ⟨h1, h2, h3⟩ := wreach_inv s h
  refine ⟨h2, ?_, ?_, ?_, ?_⟩
  · intro c hops hinf
    have := h1 c
    have := h2 c
    omega
  · intro c hno
    by_cases ho : s.wake_ops c = 0
    · have hw : ¬ s.working c = false := fun hf => hno ⟨ho, hf⟩
      simp [wake, ho, hw]
    · simp [wake, ho]
  · intro c ho hw
    by_cases hip : s.wakes_in_progress = false <;>
      simp [wake, ho, hw, hip, updN]
  · intro c rest hl
    by_cases hre : rest.isEmpty <;> simp [wake_pop_front, hl, hre]

/-- Witness for C1: after a single `wake` of context 0 from the initial
state, context 0 is on the wake list exactly once. -/
theorem wake_at_most_once_witness :
    0 < (wake winit 0).1.wake_ops 0 ∧ (wake winit 0).1.inflight 0 = 0 ∧
    (wake winit 0).1.wake_list.count 0 = 1 := by
  have hr : WReach (wake winit 0).1 :=
    WReach.step _ _ WReach.init (WStep.wake winit 0)
  refine ⟨by simp [wake, winit, updN], by simp [wake, winit], ?_⟩
  exact (wake_at_most_once _ hr).2.1 0 (by simp [wake, winit, updN])
    (by simp [wake, winit])

theorem interruptN_fresh (n : Nat) : interruptN n pro_init = mkFresh n := by
  have step : ∀ (k : Nat) (p : ProState),
      interruptN k p = { p with interrupts := p.interrupts + k } := by
    intro k
    induction k with
    | zero => intro p; simp [interruptN]
    | succ j ih =>
      intro p
      rw [interruptN, ih]
      simp [pn_proactor_interrupt]
      omega
  rw [step n pro_init]
  simp [mkFresh, pro_init]

theorem drainLoop_cons (f : Nat) (p p2 : ProState) (e : PEvent)
    (h : proactor_batch_next p = (some e, p2)) :
    drainLoop (f + 1) p = e :: drainLoop f p2 := by
  simp only [drainLoop, h]

theorem batch_next_deferred (k : Nat) :
    proactor_batch_next (mkDeferred (k + 1))
      = (some PEvent.interrupt, mkDeferred k) := by
  simp [proactor_batch_next, proactor_update_batch, proactor_has_event,
        mkDeferred, pro_init, proactor_add_event, collector_next]

theorem drain_deferred (k : Nat) : ∀ fuel : Nat, k ≤ fuel →
    drainLoop fuel (mkDeferred k) = List.replicate k PEvent.interrupt := by
  induction k with
  | zero =>
    intro fuel _
    cases fuel with
    | zero => rfl
    | succ f =>
      simp [drainLoop, proactor_batch_next, proactor_update_batch,
            proactor_has_event, mkDeferred, pro_init, collector_next]
  | succ k ih =>
    intro fuel hf
    cases fuel with
    | zero => omega
    | succ f =>
      rw [drainLoop_cons f _ _ _ (batch_next_deferred k), ih f (by omega)]
      rfl

theorem batch_next_fresh (k : Nat) :
    proactor_batch_next (mkFresh (k + 1))
      = (some PEvent.interrupt, mkDeferred k) := by
  by_cases hk : 0 < k
  · simp [proactor_batch_next, proactor_update_batch, proactor_has_event,
          mkFresh, mkDeferred, pro_init, proactor_add_event, collector_next, hk]
  · have hk0 : k = 0 := by omega
    subst hk0
    decide

theorem ubatch_len (p : ProState) (hc : p.collector = []) :
    (proactor_update_batch p).2.collector.length ≤ 1 := by
  simp only [proactor_update_batch, proactor_has_event, hc]
  split_ifs <;> simp_all [proactor_add_event, hc]

theorem ubatch_deferred_first (p : ProState) (hc : p.collector = [])
    (hd : 0 < p.deferred_interrupts) :
    (proactor_update_batch p).2.collector = [PEvent.interrupt] := by
  simp [proactor_update_batch, proactor_has_event, hc, hd, proactor_add_event]

/-- C2: interrupts are conserved and never coalesced.  Starting from a
quiescent proactor, `n` calls to `pn_proactor_interrupt` make the drain
deliver exactly `n` `PN_PROACTOR_INTERRUPT` events (no more, no fewer, and
nothing else); each `proactor_update_batch` fill of an empty collector adds
at most one event, so interrupts never occupy the collector two at a time;
and when `deferred_interrupts` is nonzero the fill emits an interrupt
before any other proactor event. -/
theorem interrupt_conservation (n : Nat) :
    (drainLoop (n + 1) (interruptN n pro_init)
      = List.replicate n PEvent.interrupt) ∧
    (∀ p : ProState, p.collector = [] →
      (proactor_update_batch p).2.collector.length ≤ 1) ∧
    (∀ p : ProState, p.collector = [] → 0 < p.deferred_interrupts →
      (proactor_update_batch p).2.collector = [PEvent.interrupt]) := by
  refine ⟨?_, fun p hc => ubatch_len p hc, fun p hc hd => ubatch_deferred_first p hc hd⟩
  rw [interruptN_fresh]
  cases n with
  | zero => decide
  | succ k =>
    rw [drainLoop_cons (k + 1) _ _ _ (batch_next_fresh k),
        drain_deferred k (k + 1) (by omega)]
    rfl

/-- Witness for C2 at n = 2. -/
theorem interrupt_conservation_witness :
    drainLoop 3 (interruptN 2 pro_init) = List.replicate 2 PEvent.interrupt ∧
    (proactor_update_batch (mkDeferred 1)).2.collector = [PEvent.interrupt] :=
  ⟨(interrupt_conservation 2).1,
   (interrupt_conservation 2).2.2 (mkDeferred 1) rfl (by decide)⟩

theorem sticky_ubatch (k : Nat) (q : ProState) (h : sticky_inv k q) :
    sticky_inv k (proactor_update_batch q).2 := by
  obtain ⟨h1, h2, h3, h4⟩ := h
  simp only [proactor_update_batch, proactor_has_event, h2]
  split_ifs with hA hB hC <;>
    simp_all [proactor_add_event, sticky_inv]

theorem sticky_next (k : Nat) (r : ProState) (h : sticky_inv k r) :
    sticky_inv k (collector_next r).2 := by
  obtain ⟨h1, h2, h3, h4⟩ := h
  cases hl : r.collector with
  | nil =>
    simp only [collector_next, hl]
    exact ⟨h1, h2, h3, h4⟩
  | cons e rest =>
    simp only [collector_next, hl]
    refine ⟨h1, h2, ?_, h4⟩
    rw [hl] at h3
    simp only [List.mem_cons, not_or] at h3
    exact h3.2

theorem sticky_step (k : Nat) (q : ProState) (a : PAct)
    (ha : pact_is_set_timeout a = false) (h : sticky_inv k q) :
    sticky_inv k (pstep a q) := by
  obtain ⟨h1, h2, h3, h4⟩ := h
  cases a with
  | interrupt => exact ⟨h1, h2, h3, h4⟩
  | set_timeout t => simp [pact_is_set_timeout] at ha
  | cancel_timeout => exact ⟨rfl, rfl, h3, h4⟩
  | fire =>
    simp only [pstep]
    split_ifs <;> exact ⟨h1, h2, h3, h4⟩
  | process timeout =>
    have key : ∀ r : ProState, sticky_inv k r → sticky_inv k (proactor_try_batch r).2 := by
      intro r hr
      simp only [proactor_try_batch]
      split_ifs with hw hb
      · have := sticky_ubatch k r hr
        exact ⟨this.1, this.2.1, this.2.2.1, this.2.2.2⟩
      · exact sticky_ubatch k r hr
      · exact hr
    cases timeout with
    | false => exact key q ⟨h1, h2, h3, h4⟩
    | true =>
      simp only [pstep, proactor_process, if_true]
      split_ifs with hcond
      · exact absurd hcond.2 (by simp [h1])
      · exact key _ ⟨h1, h2, h3, h4⟩
  | batch_next => exact sticky_next k _ (sticky_ubatch k q ⟨h1, h2, h3, h4⟩)
  | done_batch =>
    have hmid : sticky_inv k ({ q with working := false } : ProState) :=
      ⟨h1, h2, h3, h4⟩
    exact sticky_ubatch k _ hmid

theorem sticky_run (k : Nat) (acts : List PAct) : ∀ q : ProState,
    no_set_timeout acts = true → sticky_inv k q → sticky_inv k (prun acts q) := by
  induction acts with
  | nil => intro q _ h; exact h
  | cons a rest ih =>
    intro q hacts h
    rw [no_set_timeout, List.all_cons, Bool.and_eq_true] at hacts
    obtain ⟨ha, hrest⟩ := hacts
    have ha2 : pact_is_set_timeout a = false := by
      cases hval : pact_is_set_timeout a
      · rfl
      · rw [hval] at ha; exact absurd ha (by decide)
    exact ih (pstep a q) hrest (sticky_step k q a ha2 h)

/-- C7: timeout cancellation is sticky.  After `pn_proactor_cancel_timeout`
no `PN_PROACTOR_TIMEOUT` event is produced by any interleaving of
interrupts, kernel timer fires, `proactor_process` deliveries (including a
fire already in flight when the cancel ran), batch pops and batch
completions, as long as no `pn_proactor_set_timeout` intervenes: the ghost
count of produced timeout events is unchanged and the collector never
contains a timeout event. -/
theorem cancel_timeout_sticky (p : ProState) (acts : List PAct)
    (hacts : no_set_timeout acts = true)
    (hnt : PEvent.timeout ∉ p.collector) :
    (prun acts (pn_proactor_cancel_timeout p)).produced_timeouts
      = (pn_proactor_cancel_timeout p).produced_timeouts ∧
    PEvent.timeout ∉ (prun acts (pn_proactor_cancel_timeout p)).collector := by
  have hbase : sticky_inv (pn_proactor_cancel_timeout p).produced_timeouts
      (pn_proactor_cancel_timeout p) := by
    refine ⟨rfl, rfl, ?_, rfl⟩
    simpa [pn_proactor_cancel_timeout] using hnt
  have := sticky_run _ acts _ hacts hbase
  exact ⟨this.2.2.2, this.2.2.1⟩

/-- Witness for C7: `set_timeout 50`, a kernel fire in flight, then
`cancel_timeout`, then the timer delivery and a non-blocking batch pop:
no timeout event is produced. -/
theorem cancel_timeout_sticky_witness :
    (prun [PAct.process true, PAct.batch_next]
        (pn_proactor_cancel_timeout
          (pstep PAct.fire (pn_proactor_set_timeout pro_init 50)))).produced_timeouts
      = (pn_proactor_cancel_timeout
          (pstep PAct.fire (pn_proactor_set_timeout pro_init 50))).produced_timeouts ∧
    PEvent.timeout ∉ (prun [PAct.process true, PAct.batch_next]
        (pn_proactor_cancel_timeout
          (pstep PAct.fire (pn_proactor_set_timeout pro_init 50)))).collector :=
  cancel_timeout_sticky _ _ (by decide) (by decide)

theorem rearm_wanted_src_eq (pc : PConn) : rearm_wanted_src pc = rearm_wanted pc := by
  unfold rearm_wanted_src rearm_wanted pconnection_rclosed pconnection_wclosed
  cases hrc : pc.driver.rclosed <;> cases hwc : pc.driver.wclosed <;>
    cases hrb : pc.read_blocked <;> cases hwb : pc.write_blocked <;>
    by_cases hbuf : pc.driver.wbuf_size = 0 <;>
    simp [hrc, hwc, hrb, hwb, hbuf, EPOLLIN, EPOLLOUT]

/-- C5: the rearm policy.  `pconnection_rearm_check` requests a rearm
exactly when the connection is not fully closed, the spec mask
`wanted = (read_blocked ∧ ¬rclosed ? EPOLLIN : 0) |
(¬wclosed ∧ (write_blocked ∨ wbuf > 0) ? EPOLLOUT : 0)` is nonzero and
differs from `current_arm`; when it requests one it sets `current_arm` to
`wanted`, when it does not it leaves the state untouched, and a connection
with both sides closed is never rearmed. -/
theorem rearm_check_eq (pc : PConn) :
    pconnection_rearm_check pc =
      if (!(pc.driver.rclosed && pc.driver.wclosed) &&
          rearm_wanted pc != 0 && pc.current_arm != rearm_wanted pc) then
        (true, { pc with sock_wanted := rearm_wanted pc,
                         current_arm := rearm_wanted pc })
      else (false, pc) := by
  unfold pconnection_rearm_check pconnection_rclosed pconnection_wclosed
  rw [rearm_wanted_src_eq]
  cases hrc : pc.driver.rclosed with
  | true =>
    cases hwc : pc.driver.wclosed with
    | true =>
      have h0 : rearm_wanted pc = 0 := by simp [rearm_wanted, hrc, hwc]
      simp [hrc, hwc, h0]
    | false =>
      by_cases h0 : rearm_wanted pc = 0
      · simp [hrc, hwc, h0]
      · by_cases harm : pc.current_arm = rearm_wanted pc <;>
          simp [hrc, hwc, h0, harm]
  | false =>
    by_cases h0 : rearm_wanted pc = 0
    · simp [hrc, h0]
    · by_cases harm : pc.current_arm = rearm_wanted pc <;> simp [hrc, h0, harm]

theorem rearm_check_policy (pc : PConn) :
    ((pconnection_rearm_check pc).1
      = (!(pc.driver.rclosed && pc.driver.wclosed) &&
         rearm_wanted pc != 0 && pc.current_arm != rearm_wanted pc)) ∧
    ((pconnection_rearm_check pc).1 = true →
      (pconnection_rearm_check pc).2.current_arm = rearm_wanted pc) ∧
    ((pconnection_rearm_check pc).1 = false → (pconnection_rearm_check pc).2 = pc) ∧
    (pc.driver.rclosed = true → pc.driver.wclosed = true →
      (pconnection_rearm_check pc).1 = false) := by
  have he := rearm_check_eq pc
  by_cases hcond : (!(pc.driver.rclosed && pc.driver.wclosed) &&
      rearm_wanted pc != 0 && pc.current_arm != rearm_wanted pc) = true
  · rw [he, if_pos hcond]
    refine ⟨hcond.symm, fun _ => rfl, fun hf => absurd hf (by simp), ?_⟩
    intro h1 h2
    simp [h1, h2] at hcond
  · rw [he, if_neg hcond]
    rw [Bool.not_eq_true] at hcond
    exact ⟨hcond.symm, fun ht => absurd ht (by simp), fun _ => rfl, fun _ _ => rfl⟩

/-- Witness for C5: a fully open, read-blocked, write-blocked connection
with nothing armed requests EPOLLIN|EPOLLOUT. -/
theorem rearm_check_policy_witness :
    (pconnection_rearm_check pconn_init).1 = true ∧
    (pconnection_rearm_check pconn_init).2.current_arm = rearm_wanted pconn_init :=
  ⟨by decide, (rearm_check_policy pconn_init).2.1 (by decide)⟩

theorem tick_preserves (pc : PConn) (o : DOracle) :
    (pconnection_tick pc o).driver = pc.driver ∧
    (pconnection_tick pc o).read_blocked = pc.read_blocked := by
  unfold pconnection_tick
  split_ifs
  · cases o.tick_next <;> simp
  · simp

/-- C8: the read pump performs at most one read per invocation and
classifies the result as the spec states: a positive return feeds the
driver (`read_done n`) and ticks; a short read marks `read_blocked` (unless
the driver closed the read side while consuming the bytes); a zero return
closes the read side through the driver and reports no error (clean
half-close); `EAGAIN`/`EWOULDBLOCK` (one errno on Linux) marks
`read_blocked` with no error; `EINTR` changes nothing; every other errno is
reported through the transport condition (`psocket_error`); and no read is
attempted while `read_blocked` is set. -/
theorem read_pump_classification (pc : PConn) (o : DOracle)
    (h1 : pc.driver.rclosed = false) (h2 : pc.driver.rbuf_size ≠ 0)
    (h3 : pc.read_blocked = false) :
    (∀ n : Nat, 0 < n →
      (pconnection_read_section pc (ReadRes.bytes n) o).read_done_arg = some n ∧
      (pconnection_read_section pc (ReadRes.bytes n) o).ticked = true ∧
      (pconnection_read_section pc (ReadRes.bytes n) o).error_reported = none ∧
      (pconnection_read_section pc (ReadRes.bytes n) o).read_close_called = false ∧
      (pconnection_read_section pc (ReadRes.bytes n) o).pc.read_blocked =
        (!(pconnection_tick { pc with driver := o.on_read_done pc.driver n } o).driver.rclosed
          && decide (n < pc.driver.rbuf_size))) ∧
    (∀ qc : PConn, (pconnection_tick qc o).driver = qc.driver) ∧
    ((pconnection_read_section pc (ReadRes.bytes 0) o).read_close_called = true ∧
     (pconnection_read_section pc (ReadRes.bytes 0) o).error_reported = none ∧
     (pconnection_read_section pc (ReadRes.bytes 0) o).pc.driver
       = o.on_read_close pc.driver) ∧
    ((pconnection_read_section pc (ReadRes.rerr EWOULDBLOCK) o).pc.read_blocked = true ∧
     (pconnection_read_section pc (ReadRes.rerr EAGAIN) o).pc.read_blocked = true ∧
     (pconnection_read_section pc (ReadRes.rerr EAGAIN) o).error_reported = none ∧
     (pconnection_read_section pc (ReadRes.rerr EAGAIN) o).pc.driver = pc.driver) ∧
    ((pconnection_read_section pc (ReadRes.rerr EINTR) o).pc = pc ∧
     (pconnection_read_section pc (ReadRes.rerr EINTR) o).error_reported = none) ∧
    (∀ e : Nat, e ≠ EAGAIN → e ≠ EWOULDBLOCK → e ≠ EINTR →
      (pconnection_read_section pc (ReadRes.rerr e) o).error_reported = some e ∧
      (pconnection_read_section pc (ReadRes.rerr e) o).pc.driver
        = o.on_error pc.driver) ∧
    (∀ (qc : PConn) (res : ReadRes), qc.read_blocked = true →
      pconnection_read_section qc res o = read_skip qc) := by
  obtain ⟨wo, cl, wops, nev, wc, tp, ta, qd, tm, tpo, ca, sw, sp, co, rb, wb, di, hcnt, dr, col⟩ := pc
  obtain ⟨dhe, drc, dwc, dfi, drb, dwb⟩ := dr
  simp only at h1 h2 h3
  subst h1 h3
  refine ⟨?_, fun qc => (tick_preserves qc o).1, ?_, ?_, ?_, ?_, ?_⟩
  · intro n hn
    simp only [pconnection_read_section, pconnection_rclosed]
    rw [if_pos (show (!false) = true from rfl),
        if_pos (show (drb != 0 && !false) = true by simp [h2]), if_pos hn]
    refine ⟨rfl, rfl, rfl, rfl, ?_⟩
    dsimp only []
    split
    · next hcond => simp only [hcond]
    · next hcond =>
      rw [(tick_preserves _ o).2]
      rw [Bool.not_eq_true] at hcond
      simp [hcond]
  · simp only [pconnection_read_section, pconnection_rclosed]
    rw [if_pos (show (!false) = true from rfl),
        if_pos (show (drb != 0 && !false) = true by simp [h2]),
        if_neg (show ¬ (0 < 0) by decide)]
    exact ⟨rfl, rfl, rfl⟩
  · refine ⟨?_, ?_, ?_, ?_⟩ <;>
      simp only [pconnection_read_section, pconnection_rclosed] <;>
      rw [if_pos (show (!false) = true from rfl),
          if_pos (show (drb != 0 && !false) = true by simp [h2])]
    · rw [if_pos (show (EWOULDBLOCK == EWOULDBLOCK) = true from rfl)]
    · rw [if_pos (show (EAGAIN == EWOULDBLOCK) = true from rfl)]
    · rw [if_pos (show (EAGAIN == EWOULDBLOCK) = true from rfl)]
    · rw [if_pos (show (EAGAIN == EWOULDBLOCK) = true from rfl)]
  · simp only [pconnection_read_section, pconnection_rclosed]
    rw [if_pos (show (!false) = true from rfl),
        if_pos (show (drb != 0 && !false) = true by simp [h2]),
        if_neg (show ¬ ((EINTR == EWOULDBLOCK) = true) by decide),
        if_neg (show ¬ ((!(EINTR == EAGAIN || EINTR == EINTR)) = true) by decide)]
    exact ⟨rfl, rfl⟩
  · intro e he1 he2 he3
    simp only [pconnection_read_section, pconnection_rclosed, psocket_error_conn]
    rw [if_pos (show (!false) = true from rfl),
        if_pos (show (drb != 0 && !false) = true by simp [h2]),
        if_neg (show ¬ ((e == EWOULDBLOCK) = true) by simp [he2]),
        if_pos (show (!(e == EAGAIN || e == EINTR)) = true by simp [he1, he3])]
    exact ⟨rfl, rfl⟩
  · intro qc res hq
    unfold pconnection_read_section
    by_cases hr : pconnection_rclosed qc = true
    · simp [hr]
    · simp only [Bool.not_eq_true] at hr
      simp [hr, hq]

/-- Witness for C8: a fresh open connection with a one-byte read buffer and
an unexpected errno 104 (ECONNRESET) reports the error. -/
theorem read_pump_classification_witness :
    (pconnection_read_section
      { pconn_init with
        read_blocked := false
        driver := { pconn_init.driver with rbuf_size := 16 } }
      (ReadRes.rerr 104) dOracleQuiet).error_reported = some 104 :=
  ((read_pump_classification _ dOracleQuiet rfl (by decide) rfl).2.2.2.2.2.1
    104 (by decide) (by decide) (by decide)).1

theorem begin_close_closing (pc : PConn) (o : DOracle) :
    (pconnection_begin_close pc o).closing = true := by
  unfold pconnection_begin_close
  split_ifs with h
  · rfl
  · simpa using h

theorem process_loop_cleanups : ∀ (fuel : Nat) (pc : PConn) (topup : Bool) (o : DOracle),
    ((pconnection_process_loop fuel pc topup o).cleanups.all final_ok) = true := by
  intro fuel
  induction fuel with
  | zero => intro pc topup o; rfl
  | succ f ih =>
    intro pc topup o
    simp only [pconnection_process_loop]
    split
    · rfl
    · split
      · rfl
      · split
        · rfl
        · split
          · next hfin => simpa [final_ok, List.all] using hfin
          · split
            · exact ih _ _ _
            · split
              · split
                · next hfin2 =>
                  simp [final_ok, List.all, begin_close_closing, hfin2]
                · rfl
              · rfl

/-- C6: a connection is destroyed only under the final predicate.  On every
path of `pconnection_process` (any fuel, epoll events, timer/topup flags
and driver behaviour) and of `pconnection_done`, the `pconnection_cleanup`
branch is reached only in a state with `closing = true`, `current_arm = 0`,
`timer.pending_count = 0` and `wake_ops = 0` (the snapshot recorded at each
cleanup call satisfies `closing && pconnection_is_final`). -/
theorem connection_freed_only_final (fuel : Nat) (pc : PConn) (events : Nat)
    (timeout topup : Bool) (o : DOracle) :
    ((pconnection_process fuel pc events timeout topup o).cleanups.all final_ok
      = true) ∧
    ((pconnection_done pc o).cleanups.all final_ok = true) := by
  constructor
  · unfold pconnection_process
    dsimp only []
    split_ifs <;>
      first
        | rfl
        | exact process_loop_cleanups fuel _ _ o
        | simp_all [final_ok, List.all, pconnection_is_final]
  · unfold pconnection_done
    dsimp only []
    split_ifs <;>
      first
        | rfl
        | simp_all [final_ok, List.all, pconnection_is_final, begin_close_closing]

theorem wakeN_open (n : Nat) : ∀ pc : PConn, pc.closing = false →
    wakeN n pc = { pc with wake_count := pc.wake_count + n } := by
  induction n with
  | zero => intro pc hc; simp [wakeN]
  | succ k ih =>
    intro pc hc
    rw [wakeN, pn_connection_wake, if_pos (by simp [hc])]
    rw [ih { pc with wake_count := pc.wake_count + 1 } hc]
    have harith : pc.wake_count + 1 + k = pc.wake_count + (k + 1) := by omega
    simp [harith]

/-- C3: external connection wakes coalesce.  For every `n ≥ 1`, `n`
`pn_connection_wake` calls on an open connection each bump `wake_count`,
and the next drain cycle (one `pconnection_process` invocation for the
inbound wake) samples and clears `wake_count` once and posts exactly one
`PN_CONNECTION_WAKE` event in the batch it returns; on a connection whose
read and write sides are both closed, the same drain clears `wake_count`
but posts no event. -/
theorem connection_wake_coalesce (n : Nat) (h : 1 ≤ n) :
    (wakeN n { pconn_init with wake_ops := 1 }
      = { pconn_init with wake_ops := 1, wake_count := n }) ∧
    ((pconnection_process 2 (wakeN n { pconn_init with wake_ops := 1 })
        0 false false dOracleQuiet).batch = true ∧
     (pconnection_process 2 (wakeN n { pconn_init with wake_ops := 1 })
        0 false false dOracleQuiet).pc.collector = [PEvent.connection_wake] ∧
     (pconnection_process 2 (wakeN n { pconn_init with wake_ops := 1 })
        0 false false dOracleQuiet).pc.wake_count = 0) ∧
    ((pconnection_process 2 (wakeN n pconn_closed)
        0 false false dOracleQuiet).pc.collector = [] ∧
     (pconnection_process 2 (wakeN n pconn_closed)
        0 false false dOracleQuiet).pc.wake_count = 0) := by
  obtain ⟨k, rfl⟩ : ∃ k, n = k + 1 := ⟨n - 1, by omega⟩
  have hw1 : wakeN (k + 1) { pconn_init with wake_ops := 1 }
      = { pconn_init with wake_ops := 1, wake_count := k + 1 } := by
    rw [wakeN_open (k + 1) _ rfl]
    simp [pconn_init]
  have hw2 : wakeN (k + 1) pconn_closed
      = { pconn_closed with wake_count := k + 1 } := by
    rw [wakeN_open (k + 1) _ rfl]
    simp [pconn_closed, pconn_init]
  refine ⟨hw1, ?_, ?_⟩
  · rw [hw1]
    refine ⟨?_, ?_, ?_⟩ <;>
      simp [pconnection_process, pconnection_merge_inputs, pconnection_process_loop,
            pconnection_merge_disconnect, pconnection_work_body, pconnection_has_event,
            pconnection_rclosed, pconnection_wclosed, pconnection_read_section,
            read_skip, pconnection_tick, pconnection_write_loop, pconnection_write,
            pconnection_work_pending, pconnection_is_final, pconnection_rearm_check,
            rearm_wanted_src, pconnection_begin_close, psocket_error_conn,
            pconn_init, dOracleQuiet, EPOLLIN, EPOLLOUT, EPOLLHUP, EPOLLERR,
            EAGAIN, EWOULDBLOCK, EINTR]
  · rw [hw2]
    refine ⟨?_, ?_⟩ <;>
      simp [pconnection_process, pconnection_merge_inputs, pconnection_process_loop,
            pconnection_merge_disconnect, pconnection_work_body, pconnection_has_event,
            pconnection_rclosed, pconnection_wclosed, pconnection_read_section,
            read_skip, pconnection_tick, pconnection_write_loop, pconnection_write,
            pconnection_work_pending, pconnection_is_final, pconnection_rearm_check,
            rearm_wanted_src, pconnection_begin_close, psocket_error_conn,
            pconn_closed, pconn_init, dOracleQuiet, EPOLLIN, EPOLLOUT, EPOLLHUP,
            EPOLLERR, EAGAIN, EWOULDBLOCK, EINTR]

/-- Witness for C3 at n = 3. -/
theorem connection_wake_coalesce_witness :
    (pconnection_process 2 (wakeN 3 { pconn_init with wake_ops := 1 })
      0 false false dOracleQuiet).pc.collector = [PEvent.connection_wake] :=
  (connection_wake_coalesce 3 (by decide)).2.1.2.1

/-- C9: `pn_proactor_listen` always posts `PN_LISTENER_OPEN` to the
listener collector; when every resolved address fails to bind or listen
(or resolution itself fails), the OPEN event is still posted, a dummy
socket carrying the error is created, the listener condition is set and
the listener begins closing, posting `PN_LISTENER_CLOSE` after the OPEN. -/
theorem listener_open_always (addrs : Option (List Bool)) :
    (PEvent.listener_open ∈ (pn_proactor_listen listener_init addrs).collector) ∧
    ((pn_proactor_listen listener_init addrs).collector
      = if listen_bound addrs = 0
        then [PEvent.listener_open, PEvent.listener_close]
        else [PEvent.listener_open]) ∧
    ((pn_proactor_listen listener_init addrs).psockets_size = listen_bound addrs) ∧
    (listen_bound addrs = 0 →
      (pn_proactor_listen listener_init addrs).dummy_socket = true ∧
      (pn_proactor_listen listener_init addrs).condition_set = true ∧
      (pn_proactor_listen listener_init addrs).closing = true) := by
  have hrun : pn_proactor_listen listener_init addrs
      = if listen_bound addrs = 0 then
          { closing := true, close_dispatched := false, wake_ops := 0,
            collector := [PEvent.listener_open, PEvent.listener_close],
            condition_set := true, psockets_size := 0, dummy_socket := true }
        else
          { closing := false, close_dispatched := false, wake_ops := 0,
            collector := [PEvent.listener_open], condition_set := false,
            psockets_size := listen_bound addrs, dummy_socket := false } := by
    cases addrs with
    | none =>
      simp [pn_proactor_listen, listener_init, listen_bound,
            psocket_error_listener, listener_begin_close]
    | some oks =>
      by_cases hz : oks.count true = 0 <;>
        simp [pn_proactor_listen, listener_init, listen_bound, hz,
              psocket_error_listener, listener_begin_close]
  rw [hrun]
  by_cases hz : listen_bound addrs = 0 <;> simp [hz]

/-- Witness for C9: two bind failures still produce OPEN and a closing
listener. -/
theorem listener_open_always_witness :
    PEvent.listener_open
      ∈ (pn_proactor_listen listener_init (some [false, false])).collector ∧
    (pn_proactor_listen listener_init (some [false, false])).closing = true :=
  ⟨(listener_open_always (some [false, false])).1,
   ((listener_open_always (some [false, false])).2.2.2 (by decide)).2.2⟩

/-- C10: `start_polling` is idempotent on an already-registered fd: with
the `polling` flag set a further call returns false and leaves both the
record and the epoll registration set unchanged, and therefore the second
of the two `start_polling` calls `pconnection_start` makes on the
per-connection timer has no effect beyond the first. -/
theorem start_polling_idempotent (ee : EpollExt) (reg : List Int) :
    (start_polling { ee with polling := true } reg
       = (false, { ee with polling := true }, reg)) ∧
    (start_polling (start_polling ee reg).2.1 (start_polling ee reg).2.2
       = (false, (start_polling ee reg).2.1, (start_polling ee reg).2.2)) ∧
    (pconnection_start_timer_polls ee reg
       = ((start_polling ee reg).2.1, (start_polling ee reg).2.2)) := by
  have h1 : ∀ (e2 : EpollExt) (r2 : List Int), e2.polling = true →
      start_polling e2 r2 = (false, e2, r2) := by
    intro e2 r2 hp
    simp [start_polling, hp]
  have hpoll : (start_polling ee reg).2.1.polling = true := by
    by_cases hp : ee.polling = true
    · simp [start_polling, hp]
    · rw [Bool.not_eq_true] at hp
      by_cases hm : ee.fd ∈ reg <;> simp [start_polling, hp, hm]
  have h2 := h1 (start_polling ee reg).2.1 (start_polling ee reg).2.2 hpoll
  refine ⟨h1 _ _ rfl, h2, ?_⟩
  simp [pconnection_start_timer_polls, h2]

end Spec2Proof

